import Mathlib

set_option maxRecDepth 40000

/-!
Verification development for the `report_papers` Teams notification core
(`src/report_papers/teams_notifier.py` and `src/report_papers/translator.py`).

Python strings are modelled as `List Char`; `json.dumps` (with its default
`ensure_ascii=True`, `", "` / `": "` separators and insertion-ordered dicts)
is modelled by `dumpsVal`; `len(s.encode("utf-8"))` is modelled by `utf8Len`.
The ambient clock (`datetime.now()`) is modelled as an explicitly injected
`Moment` parameter, and the webhook transport / Amazon Translate client are
modelled as function parameters, following the spec's collaborator model.
-/

/-- Byte length of one character under UTF-8, as produced by
`str.encode("utf-8")` in Python. -/
def charUtf8Len (c : Char) : Nat :=
  if c.toNat < 0x80 then 1
  else if c.toNat < 0x800 then 2
  else if c.toNat < 0x10000 then 3
  else 4

/-- `len(s.encode("utf-8"))`: total UTF-8 byte length of a string. -/
def utf8Len (s : List Char) : Nat := s.foldr (fun c n => charUtf8Len c + n) 0

/-- Lower-case hexadecimal digit, as used by Python's `\uXXXX` escapes. -/
def hexDigitChar (n : Nat) : Char :=
  if n < 10 then Char.ofNat (48 + n) else Char.ofNat (87 + n)

/-- Four lower-case hex digits of `n % 0x10000`. -/
def hex4 (n : Nat) : List Char :=
  [hexDigitChar (n / 4096 % 16), hexDigitChar (n / 256 % 16),
   hexDigitChar (n / 16 % 16), hexDigitChar (n % 16)]

/-- Escaping of a single character inside a JSON string literal, following
CPython's `json.encoder.py_encode_basestring_ascii` (`ensure_ascii=True`):
shorthand escapes for `"`, `\`, newline, tab, carriage return, backspace and
form feed; printable ASCII kept as is; everything else `\uXXXX`, with
surrogate pairs above the BMP. -/
def escapeChar (c : Char) : List Char :=
  if c = '"' then ['\\', '"']
  else if c = '\\' then ['\\', '\\']
  else if c = '\n' then ['\\', 'n']
  else if c = '\t' then ['\\', 't']
  else if c = '\r' then ['\\', 'r']
  else if c.toNat = 8 then ['\\', 'b']
  else if c.toNat = 12 then ['\\', 'f']
  else if 0x20 ≤ c.toNat ∧ c.toNat ≤ 0x7E then [c]
  else if c.toNat < 0x10000 then '\\' :: 'u' :: hex4 c.toNat
  else ('\\' :: 'u' :: hex4 (0xD800 + (c.toNat - 0x10000) / 0x400)) ++
       ('\\' :: 'u' :: hex4 (0xDC00 + (c.toNat - 0x10000) % 0x400))

/-- Escape every character of a JSON string body. -/
def escStr (s : List Char) : List Char := s.foldr (fun c acc => escapeChar c ++ acc) []

mutual

/-- The JSON values occurring in the Teams payload: strings, booleans,
arrays and (insertion-ordered) objects. -/
inductive Json where
  | str (s : List Char)
  | bool (b : Bool)
  | arr (elems : JsonArr)
  | obj (fields : JsonObj)

/-- A list of JSON array elements (mutual with `Json` so that the
serializer is structurally recursive). -/
inductive JsonArr where
  | nil
  | cons (hd : Json) (tl : JsonArr)

/-- An insertion-ordered list of JSON object fields. -/
inductive JsonObj where
  | nil
  | cons (key : List Char) (val : Json) (tl : JsonObj)

end

/-- Convert an ordinary list of values into a `JsonArr`. -/
def ja : List Json → JsonArr
  | [] => .nil
  | v :: vs => .cons v (ja vs)

/-- Convert an ordinary association list into a `JsonObj`. -/
def jo : List (List Char × Json) → JsonObj
  | [] => .nil
  | (k, v) :: kvs => .cons k v (jo kvs)

mutual

/-- `json.dumps` with CPython's defaults: item separator `", "`,
key separator `": "`, `ensure_ascii=True`, insertion key order. -/
def dumpsVal : Json → List Char
  | .str s => '"' :: escStr s ++ ['"']
  | .bool b => if b then "true".data else "false".data
  | .arr l => '[' :: dumpsElems l ++ [']']
  | .obj l => '\x7b' :: dumpsFields l ++ ['\x7d']

/-- Serialize array elements, `", "`-separated. -/
def dumpsElems : JsonArr → List Char
  | .nil => []
  | .cons v .nil => dumpsVal v
  | .cons v tl => dumpsVal v ++ ',' :: ' ' :: dumpsElems tl

/-- Serialize object fields, `", "`-separated, each as `"key": value`. -/
def dumpsFields : JsonObj → List Char
  | .nil => []
  | .cons k v .nil => '"' :: escStr k ++ '"' :: ':' :: ' ' :: dumpsVal v
  | .cons k v tl =>
      '"' :: escStr k ++ '"' :: ':' :: ' ' :: dumpsVal v ++ ',' :: ' ' :: dumpsFields tl

end

/-- Shorthand: JSON string from a literal. -/
def jstr (s : String) : Json := Json.str s.data

/-- Shorthand: JSON array from a list. -/
def jarr (l : List Json) : Json := Json.arr (ja l)

/-- Shorthand: JSON object from a list of literal-keyed fields. -/
def jobj (l : List (String × Json)) : Json :=
  Json.obj (jo (l.map (fun kv => (kv.1.data, kv.2))))

/-- Python `str(n)` for a natural number. -/
def reprChars (n : Nat) : List Char := (Nat.repr n).data

/-- Zero-pad the decimal representation of `n` to width `w`, as in
`strftime`'s `%Y`/`%m`/`%d`/`%H`/`%M`/`%S` fields. -/
def padZero (w n : Nat) : List Char :=
  List.replicate (w - (reprChars n).length) '0' ++ reprChars n

/-- A clock reading. The source calls `datetime.now()` inside the card
renderer; per the spec the current time is injected as a parameter here. -/
structure Moment where
  year : Nat
  month : Nat
  day : Nat
  hour : Nat
  minute : Nat
  second : Nat

/-- `dt.strftime("%Y-%m-%d")`. -/
def fmtDate (t : Moment) : List Char :=
  padZero 4 t.year ++ '-' :: padZero 2 t.month ++ '-' :: padZero 2 t.day

/-- `dt.strftime("%Y-%m-%d %H:%M:%S UTC")`. -/
def fmtStamp (t : Moment) : List Char :=
  fmtDate t ++ ' ' :: padZero 2 t.hour ++ ':' :: padZero 2 t.minute ++
    ':' :: padZero 2 t.second ++ " UTC".data

/-- Python `sep.join(strs)`. -/
def joinSep (sep : List Char) : List (List Char) → List Char
  | [] => []
  | [s] => s
  | s :: rest => s ++ sep ++ joinSep sep rest

/-- `Paper` from `src/report_papers/interface.py`. -/
structure Paper where
  id : List Char
  title : List Char
  summary : List Char
  authors : List (List Char)
  published : Moment
  updated : Moment
  link : List Char
  categories : List (List Char)

/-- The duck-typed relevance object consumed by the renderer (spec §3).
Its `relevance_score` is a Python float in `[0.0, 1.0]`, modelled as `ℚ`. -/
structure Relevance where
  relevance_score : ℚ
  reason : List Char
  key_topics : List (List Char)
  is_relevant : Bool

/-- A notification item `(paper, relevance, translated_abstract)`. -/
abbrev NItem := Paper × Relevance × List Char

/-- Round `num / den` (with `den > 0`) to the nearest integer, ties to even,
matching the rounding of Python float formatting. -/
def roundHalfEvenScaled (num : ℤ) (den : ℕ) : ℤ :=
  let f := Int.fdiv num den
  let r2 := 2 * (num - f * den)
  if r2 < (den : ℤ) then f
  else if (den : ℤ) < r2 then f + 1
  else if f % 2 = 0 then f else f + 1

/-- Python `f"{q:.1f}"`: one decimal place, round-half-even, computed on the
exact rational `q` through its numerator and denominator. -/
def fmt1f (q : ℚ) : List Char :=
  (if roundHalfEvenScaled (10 * q.num) q.den < 0 then ['-'] else []) ++
  reprChars ((roundHalfEvenScaled (10 * q.num) q.den).natAbs / 10) ++
  '.' :: reprChars ((roundHalfEvenScaled (10 * q.num) q.den).natAbs % 10)

-- Teams webhook payload size limit (28KB), use 27KB for safety margin
-- (`MAX_PAYLOAD_SIZE_BYTES = 27 * 1024` in teams_notifier.py).
def MAX_PAYLOAD_SIZE_BYTES : Nat := 27 * 1024

/-- The header text of `_generate_papers_card`: Python
`if total_papers and total_papers > len(papers_with_translations)` chooses the
truncated wording (`None` and `0` are both falsy). -/
def headerText (shownLen : Nat) (total : Option Nat) : List Char :=
  match total with
  | some t =>
      if t ≠ 0 ∧ shownLen < t then
        reprChars shownLen ++ " of ".data ++ reprChars t ++
          " New Relevant Papers (size limit reached)".data
      else reprChars shownLen ++ " New Relevant Papers".data
  | none => reprChars shownLen ++ " New Relevant Papers".data

/-- The title line of one paper: the relevance emoji
(`"🟢" if relevance_score >= 0.8 else "🟡"`, the comparison with the float
`0.8 = 4/5` expressed on the rational's numerator and denominator) and the
Markdown link `f"{score_emoji} [{paper.title}]({paper.link})"`. -/
def titleBlock (p : Paper) (r : Relevance) : Json :=
  jobj [("type", jstr "TextBlock"),
        ("text", Json.str
          ((if (4 : ℤ) * r.relevance_score.den ≤ 5 * r.relevance_score.num
            then "🟢".data else "🟡".data) ++
           " [".data ++ p.title ++ "](".data ++ p.link ++ ")".data)),
        ("weight", jstr "bolder"), ("wrap", Json.bool true)]

/-- The authors line, `f"**Authors:** {', '.join(paper.authors)}"`. -/
def authorsBlock (p : Paper) : Json :=
  jobj [("type", jstr "TextBlock"),
        ("text", Json.str ("**Authors:** ".data ++ joinSep ", ".data p.authors)),
        ("wrap", Json.bool true), ("size", jstr "small"), ("spacing", jstr "small")]

/-- The translated abstract, shown in full. -/
def abstractBlock (translated_abstract : List Char) : Json :=
  jobj [("type", jstr "TextBlock"), ("text", Json.str translated_abstract),
        ("wrap", Json.bool true), ("spacing", jstr "small")]

/-- The FactSet of one paper: score as `f"{…:.1f}/1.0"`, publish date, and
the first 3 key topics. -/
def factsBlock (p : Paper) (r : Relevance) : Json :=
  jobj [("type", jstr "FactSet"),
        ("facts", jarr [
          jobj [("title", jstr "Relevance"),
                ("value", Json.str (fmt1f r.relevance_score ++ "/1.0".data))],
          jobj [("title", jstr "Published"),
                ("value", Json.str (fmtDate p.published))],
          jobj [("title", jstr "Topics"),
                ("value", Json.str (joinSep ", ".data (r.key_topics.take 3)))]]),
        ("spacing", jstr "small")]

/-- One paper's container in the card body (the `paper_items` list wrapped
in a `Container` in `_generate_papers_card`). -/
def paperContainer (p : Paper) (r : Relevance) (translated_abstract : List Char) : Json :=
  jobj [("type", jstr "Container"), ("separator", Json.bool true),
        ("spacing", jstr "medium"),
        ("items", jarr [titleBlock p r, authorsBlock p,
          abstractBlock translated_abstract, factsBlock p r])]

/-- The header container: header text, research topics line, date line. -/
def headerContainer (shownLen : Nat) (total_papers : Option Nat)
    (research_topics : List (List Char)) (now : Moment) : Json :=
  jobj [("type", jstr "Container"), ("style", jstr "emphasis"),
        ("items", jarr [
          jobj [("type", jstr "TextBlock"),
                ("text", Json.str (headerText shownLen total_papers)),
                ("weight", jstr "bolder"), ("size", jstr "large"),
                ("wrap", Json.bool true)],
          jobj [("type", jstr "TextBlock"),
                ("text", Json.str ("Research Topics: ".data ++
                  joinSep ", ".data research_topics)),
                ("wrap", Json.bool true), ("spacing", jstr "small")],
          jobj [("type", jstr "TextBlock"),
                ("text", Json.str ("Date: ".data ++ fmtDate now)),
                ("size", jstr "small"), ("color", jstr "accent"),
                ("spacing", jstr "none")]])]

/-- The footer `TextBlock` with the "generated at" timestamp. -/
def footerBlock (now : Moment) : Json :=
  jobj [("type", jstr "TextBlock"),
        ("text", Json.str ("Generated by Report Papers AI Agent • ".data ++
          fmtStamp now)),
        ("size", jstr "small"), ("color", jstr "accent"),
        ("horizontalAlignment", jstr "center"), ("spacing", jstr "medium"),
        ("separator", Json.bool true)]

/-- `_generate_papers_card(papers_with_translations, research_topics,
total_papers)`, with the two `datetime.now()` reads injected as `now`. -/
def _generate_papers_card (papers_with_translations : List NItem)
    (research_topics : List (List Char)) (total_papers : Option Nat)
    (now : Moment) : Json :=
  jobj [("type", jstr "AdaptiveCard"),
        ("$schema", jstr "http://adaptivecards.io/schemas/adaptive-card.json"),
        ("version", jstr "1.2"),
        ("body", jarr
          (headerContainer papers_with_translations.length total_papers
              research_topics now ::
           papers_with_translations.map (fun it => paperContainer it.1 it.2.1 it.2.2) ++
           [footerBlock now]))]

/-- The wire envelope around a card, built identically in
`_send_adaptive_card` and in `_find_optimal_paper_count`. -/
def payloadWrap (card_content : Json) : Json :=
  jobj [("type", jstr "message"),
        ("attachments", jarr [
          jobj [("contentType", jstr "application/vnd.microsoft.card.adaptive"),
                ("content", card_content)]])]

/-- `len(json.dumps(payload).encode("utf-8"))` for the envelope around the
card rendered from `shown` with true total `total`. -/
def payloadSize (shown : List NItem) (topics : List (List Char))
    (total : Option Nat) (now : Moment) : Nat :=
  utf8Len (dumpsVal (payloadWrap (_generate_papers_card shown topics total now)))

/-- Size of the envelope for the length-`k` leading slice of `items`
(true total `items.length`), the quantity probed by the search loop. -/
def sliceSize (items : List NItem) (topics : List (List Char)) (now : Moment)
    (k : Nat) : Nat :=
  payloadSize (items.take k) topics (some items.length) now

/-- The `while abs(ok - ng) > 1` bisection loop of
`_find_optimal_paper_count`, with the loop modelled by structural recursion
on a fuel argument (the callers pass fuel `≥ Nat.dist ok ng`, which always
suffices since the gap shrinks every iteration; see
`findCountLoopF_fuel_irrel`). `fits mid` is the probe
`payload_size <= MAX_PAYLOAD_SIZE_BYTES`. -/
def findCountLoopF (fits : Nat → Bool) : Nat → Nat → Nat → Nat
  | 0, ok, _ => ok
  | fuel + 1, ok, ng =>
    if 1 < Nat.dist ok ng then
      if fits ((ok + ng) / 2) then findCountLoopF fits fuel ((ok + ng) / 2) ng
      else findCountLoopF fits fuel ok ((ok + ng) / 2)
    else ok

/-- The number of render+measure probes the loop performs, instrumented
alongside `findCountLoopF` with the same structure. -/
def findCountStepsF (fits : Nat → Bool) : Nat → Nat → Nat → Nat
  | 0, _, _ => 0
  | fuel + 1, ok, ng =>
    if 1 < Nat.dist ok ng then
      (if fits ((ok + ng) / 2) then findCountStepsF fits fuel ((ok + ng) / 2) ng
       else findCountStepsF fits fuel ok ((ok + ng) / 2)) + 1
    else 0

/-- The spec's `find_max_fitting_count(items, topics, limit_bytes)` (§4.3):
the source's `_find_optimal_paper_count` with the size limit generalized to a
parameter, plus the injected clock.  `ok, ng = 0, len(items) + 1`; probe
`mid = (ok + ng) // 2`; `ok = mid` when the rendered slice fits, else
`ng = mid`; return `ok`. -/
def find_max_fitting_count (items : List NItem) (topics : List (List Char))
    (limit_bytes : Nat) (now : Moment) : Nat :=
  match items with
  | [] => 0
  | _ =>
    findCountLoopF (fun mid => decide (sliceSize items topics now mid ≤ limit_bytes))
      (items.length + 1) 0 (items.length + 1)

/-- `_find_optimal_paper_count(translated_papers, research_topics)`: the
source inlines the constant `MAX_PAYLOAD_SIZE_BYTES` as the limit. -/
def _find_optimal_paper_count (translated_papers : List NItem)
    (research_topics : List (List Char)) (now : Moment) : Nat :=
  find_max_fitting_count translated_papers research_topics MAX_PAYLOAD_SIZE_BYTES now

/-- Number of render+measure probes performed by the search on `items`
(zero for an empty list, which returns before entering the loop). -/
def findProbeCount (items : List NItem) (topics : List (List Char))
    (limit_bytes : Nat) (now : Moment) : Nat :=
  match items with
  | [] => 0
  | _ =>
    findCountStepsF (fun mid => decide (sliceSize items topics now mid ≤ limit_bytes))
      (items.length + 1) 0 (items.length + 1)

/-- ASCII whitespace stripped by Python `str.strip()` with no argument. -/
def pySpace (c : Char) : Bool :=
  c = ' ' || c = '\t' || c = '\n' || c = '\r' || c.toNat = 11 || c.toNat = 12

/-- Python `text.strip()` (only its emptiness is consumed by the source). -/
def pyStrip (text : List Char) : List Char :=
  ((text.dropWhile pySpace).reverse.dropWhile pySpace).reverse

/-- `Translator.translate_text` from `src/report_papers/translator.py`.
The Amazon Translate call is the collaborator `client`; a raised exception is
modelled as `Except.error`, and the `except` branch returns the original
text. Blank text and target language `"en"` return the text unchanged. -/
def translate_text (target_language : List Char)
    (client : List Char → Except Unit (List Char)) (text : List Char) : List Char :=
  if text.isEmpty || (pyStrip text).isEmpty then text
  else if target_language = "en".data then text
  else
    match client text with
    | .ok translated_text => translated_text
    | .error _ => text

/-- `_prepare_translated_papers`: translate each paper's summary once. -/
def _prepare_translated_papers (translate : List Char → List Char)
    (relevant_papers : List (Paper × Relevance)) : List NItem :=
  relevant_papers.map (fun pr => (pr.1, pr.2, translate pr.1.summary))

/-- `_send_adaptive_card`: wrap the card in the webhook envelope and hand it
to the transport collaborator `post` (requests.post + raise_for_status,
returning `False` on failure, is opaque behind `post`). -/
def _send_adaptive_card (post : Json → Bool) (card_content : Json) : Bool :=
  post (payloadWrap card_content)

/-- `send_paper_notification(relevant_papers, research_topics)`: empty input
is a success no-op; otherwise translate, search for the optimal count,
render the final card with the true total, and hand it to the transport.
(The `except` branch is unreachable here: every modelled step is total.) -/
def send_paper_notification (post : Json → Bool)
    (translate : List Char → List Char)
    (relevant_papers : List (Paper × Relevance))
    (research_topics : List (List Char)) (now : Moment) : Bool :=
  match relevant_papers with
  | [] => true
  | _ =>
    let translated_papers := _prepare_translated_papers translate relevant_papers
    let optimal_count := _find_optimal_paper_count translated_papers research_topics now
    _send_adaptive_card post
      (_generate_papers_card (translated_papers.take optimal_count) research_topics
        (some translated_papers.length) now)

/-- A fixed clock reading used by the concrete instances below. -/
def now0 : Moment := ⟨2025, 10, 12, 3, 4, 5⟩

/-- A small concrete paper. -/
def paper0 : Paper :=
  { id := "2501.0001".data, title := "T".data, summary := "S".data,
    authors := ["A".data], published := now0, updated := now0,
    link := "http://x".data, categories := [] }

/-- A concrete relevance object with score 0.9. -/
def rel0 : Relevance :=
  { relevance_score := ⟨9, 10, by decide, by decide⟩, reason := "r".data,
    key_topics := ["k".data], is_relevant := true }

/-- A one-item translated list whose rendered envelope is small. -/
def items0 : List NItem := [(paper0, rel0, paper0.summary)]

/-- A paper whose abstract alone is 27649 ASCII characters, so any envelope
embedding it exceeds `MAX_PAYLOAD_SIZE_BYTES`. -/
def bigPaper : Paper :=
  { id := "2501.0002".data, title := "B".data,
    summary := List.replicate 27649 'a',
    authors := ["A".data], published := now0, updated := now0,
    link := "http://x".data, categories := [] }

/-- The translated one-item list built from `bigPaper`. -/
def bigItems : List NItem := [(bigPaper, rel0, bigPaper.summary)]

/-- Sanity check: the serializer reproduces `json.dumps` on a small object,
with `", "` and `": "` separators and insertion order. -/
theorem dumps_obj_sample : dumpsVal (jobj [("a", jstr "x"), ("b", Json.bool true)]) =
    "\x7b\"a\": \"x\", \"b\": true\x7d".data := by decide

/-- Sanity check: `ensure_ascii=True` escapes of the BMP bullet and of the
surrogate-pair emoji, and UTF-8 byte counts, match CPython. -/
theorem dumps_escape_samples : dumpsVal (jstr "•") = "\"\\u2022\"".data ∧
    dumpsVal (jstr "🟢") = "\"\\ud83d\\udfe2\"".data ∧
    utf8Len "•🟢a".data = 8 := by
  refine ⟨by decide, by decide, by decide⟩

/-- Sanity check: the `{:.1f}` formatter rounds half to even and pads, as
CPython does, and `Nat.repr` matches `str` on a sample. -/
theorem fmt1f_samples : fmt1f ⟨9, 10, by decide, by decide⟩ = "0.9".data ∧
    fmt1f ⟨3, 4, by decide, by decide⟩ = "0.8".data ∧
    fmt1f 1 = "1.0".data ∧ reprChars 2025 = "2025".data := by
  refine ⟨by decide, by decide, by decide, by decide⟩

theorem utf8Len_nil : utf8Len [] = 0 := rfl

theorem utf8Len_cons (c : Char) (a : List Char) :
    utf8Len (c :: a) = charUtf8Len c + utf8Len a := rfl

theorem utf8Len_append (a b : List Char) :
    utf8Len (a ++ b) = utf8Len a + utf8Len b := by
  induction a with
  | nil => simp [utf8Len_nil]
  | cons c a ih => simp [List.cons_append, utf8Len_cons, ih, Nat.add_assoc]

theorem escStr_cons (c : Char) (s : List Char) :
    escStr (c :: s) = escapeChar c ++ escStr s := rfl

theorem escStr_replicate_a (m : Nat) :
    escStr (List.replicate m 'a') = List.replicate m 'a' := by
  induction m with
  | zero => rfl
  | succ m ih =>
      rw [List.replicate_succ, escStr_cons, ih]
      rfl

theorem utf8Len_replicate_a (m : Nat) : utf8Len (List.replicate m 'a') = m := by
  induction m with
  | zero => rfl
  | succ m ih =>
      rw [List.replicate_succ, utf8Len_cons, ih]
      have h : charUtf8Len 'a' = 1 := by decide
      omega

theorem le_utf8Len_dumpsVal_str (s : List Char) :
    utf8Len (escStr s) ≤ utf8Len (dumpsVal (Json.str s)) := by
  simp [dumpsVal, utf8Len_cons, utf8Len_append]
  omega

theorem le_utf8Len_dumpsElems_head (v : Json) (tl : JsonArr) :
    utf8Len (dumpsVal v) ≤ utf8Len (dumpsElems (.cons v tl)) := by
  cases tl with
  | nil => simp [dumpsElems]
  | cons w tl =>
      simp only [dumpsElems, utf8Len_append]
      exact Nat.le_add_right _ _

theorem le_utf8Len_dumpsElems_tail (v : Json) (tl : JsonArr) :
    utf8Len (dumpsElems tl) ≤ utf8Len (dumpsElems (.cons v tl)) := by
  cases tl with
  | nil => simp [dumpsElems, utf8Len_nil]
  | cons w tl =>
      simp only [dumpsElems, utf8Len_append, utf8Len_cons]
      omega

theorem le_utf8Len_dumpsFields_val (k : List Char) (v : Json) (tl : JsonObj) :
    utf8Len (dumpsVal v) ≤ utf8Len (dumpsFields (.cons k v tl)) := by
  cases tl with
  | nil =>
      simp only [dumpsFields, utf8Len_append, utf8Len_cons]
      omega
  | cons k2 v2 tl =>
      simp only [dumpsFields, utf8Len_append, utf8Len_cons]
      omega

theorem le_utf8Len_dumpsFields_tail (k : List Char) (v : Json) (tl : JsonObj) :
    utf8Len (dumpsFields tl) ≤ utf8Len (dumpsFields (.cons k v tl)) := by
  cases tl with
  | nil => simp [dumpsFields, utf8Len_nil]
  | cons k2 v2 tl =>
      simp only [dumpsFields, utf8Len_append, utf8Len_cons]
      omega

theorem le_utf8Len_dumpsVal_arr (l : JsonArr) :
    utf8Len (dumpsElems l) ≤ utf8Len (dumpsVal (Json.arr l)) := by
  simp only [dumpsVal, utf8Len_cons, utf8Len_append]
  omega

theorem le_utf8Len_dumpsVal_obj (l : JsonObj) :
    utf8Len (dumpsFields l) ≤ utf8Len (dumpsVal (Json.obj l)) := by
  simp only [dumpsVal, utf8Len_cons, utf8Len_append]
  omega

theorem le_utf8Len_elem (l : List Json) (v : Json) (h : v ∈ l) :
    utf8Len (dumpsVal v) ≤ utf8Len (dumpsVal (jarr l)) := by
  refine le_trans ?_ (le_utf8Len_dumpsVal_arr (ja l))
  induction l with
  | nil => cases h
  | cons w l ih =>
      rcases List.mem_cons.mp h with h1 | h2
      · subst h1; exact le_utf8Len_dumpsElems_head _ _
      · exact le_trans (ih h2) (le_utf8Len_dumpsElems_tail _ _)

theorem le_utf8Len_field (l : List (String × Json)) (k : String) (v : Json)
    (h : (k, v) ∈ l) :
    utf8Len (dumpsVal v) ≤ utf8Len (dumpsVal (jobj l)) := by
  refine le_trans ?_ (le_utf8Len_dumpsVal_obj _)
  induction l with
  | nil => cases h
  | cons kv l ih =>
      rcases List.mem_cons.mp h with h1 | h2
      · subst h1; exact le_utf8Len_dumpsFields_val _ _ _
      · exact le_trans (ih h2) (le_utf8Len_dumpsFields_tail _ _ _)

theorem le_utf8Len_paperContainer (p : Paper) (r : Relevance) (ta : List Char) :
    utf8Len (escStr ta) ≤ utf8Len (dumpsVal (paperContainer p r ta)) := by
  have h1 : utf8Len (escStr ta) ≤ utf8Len (dumpsVal (abstractBlock ta)) :=
    le_trans (le_utf8Len_dumpsVal_str ta)
      (le_utf8Len_field
        [("type", jstr "TextBlock"), ("text", Json.str ta),
         ("wrap", Json.bool true), ("spacing", jstr "small")]
        "text" (Json.str ta) (by simp))
  have h2 : utf8Len (dumpsVal (abstractBlock ta)) ≤ utf8Len (dumpsVal
      (jarr [titleBlock p r, authorsBlock p, abstractBlock ta, factsBlock p r])) :=
    le_utf8Len_elem _ _ (by simp)
  have h3 : utf8Len (dumpsVal
      (jarr [titleBlock p r, authorsBlock p, abstractBlock ta, factsBlock p r])) ≤
      utf8Len (dumpsVal (paperContainer p r ta)) :=
    le_utf8Len_field
      [("type", jstr "Container"), ("separator", Json.bool true),
       ("spacing", jstr "medium"),
       ("items", jarr [titleBlock p r, authorsBlock p, abstractBlock ta, factsBlock p r])]
      "items" _ (by simp)
  exact le_trans h1 (le_trans h2 h3)

theorem le_utf8Len_card (shown : List NItem) (topics : List (List Char))
    (total : Option Nat) (now : Moment) (it : NItem) (h : it ∈ shown) :
    utf8Len (dumpsVal (paperContainer it.1 it.2.1 it.2.2)) ≤
    utf8Len (dumpsVal (_generate_papers_card shown topics total now)) := by
  have h1 : utf8Len (dumpsVal (paperContainer it.1 it.2.1 it.2.2)) ≤
      utf8Len (dumpsVal (jarr (headerContainer shown.length total topics now ::
        shown.map (fun x => paperContainer x.1 x.2.1 x.2.2) ++ [footerBlock now]))) :=
    le_utf8Len_elem _ _
      (List.mem_cons_of_mem _ (List.mem_append_left _ (List.mem_map_of_mem _ h)))
  have h2 : utf8Len (dumpsVal (jarr (headerContainer shown.length total topics now ::
        shown.map (fun x => paperContainer x.1 x.2.1 x.2.2) ++ [footerBlock now]))) ≤
      utf8Len (dumpsVal (_generate_papers_card shown topics total now)) :=
    le_utf8Len_field
      [("type", jstr "AdaptiveCard"),
       ("$schema", jstr "http://adaptivecards.io/schemas/adaptive-card.json"),
       ("version", jstr "1.2"),
       ("body", jarr (headerContainer shown.length total topics now ::
         shown.map (fun x => paperContainer x.1 x.2.1 x.2.2) ++ [footerBlock now]))]
      "body" _ (by simp)
  exact le_trans h1 h2

theorem le_utf8Len_payloadWrap (card_content : Json) :
    utf8Len (dumpsVal card_content) ≤ utf8Len (dumpsVal (payloadWrap card_content)) := by
  have h1 : utf8Len (dumpsVal card_content) ≤ utf8Len (dumpsVal
      (jobj [("contentType", jstr "application/vnd.microsoft.card.adaptive"),
             ("content", card_content)])) :=
    le_utf8Len_field
      [("contentType", jstr "application/vnd.microsoft.card.adaptive"),
       ("content", card_content)] "content" _ (by simp)
  have h2 : utf8Len (dumpsVal
      (jobj [("contentType", jstr "application/vnd.microsoft.card.adaptive"),
             ("content", card_content)])) ≤ utf8Len (dumpsVal
      (jarr [jobj [("contentType", jstr "application/vnd.microsoft.card.adaptive"),
                   ("content", card_content)]])) :=
    le_utf8Len_elem _ _ (by simp)
  have h3 : utf8Len (dumpsVal
      (jarr [jobj [("contentType", jstr "application/vnd.microsoft.card.adaptive"),
                   ("content", card_content)]])) ≤
      utf8Len (dumpsVal (payloadWrap card_content)) :=
    le_utf8Len_field
      [("type", jstr "message"),
       ("attachments",
        jarr [jobj [("contentType", jstr "application/vnd.microsoft.card.adaptive"),
                    ("content", card_content)]])]
      "attachments" _ (by simp)
  exact le_trans h1 (le_trans h2 h3)

/-- Any shown item's escaped abstract is no longer than the whole measured
envelope: the measured size dominates every piece of content it embeds. -/
theorem abstract_le_payloadSize (shown : List NItem) (topics : List (List Char))
    (total : Option Nat) (now : Moment) (it : NItem) (h : it ∈ shown) :
    utf8Len (escStr it.2.2) ≤ payloadSize shown topics total now :=
  le_trans (le_utf8Len_paperContainer it.1 it.2.1 it.2.2)
    (le_trans (le_utf8Len_card shown topics total now it h)
      (le_utf8Len_payloadWrap _))

theorem findCountLoopF_fuel_irrel (fits : Nat → Bool) :
    ∀ (f1 f2 ok ng : Nat), Nat.dist ok ng ≤ f1 → Nat.dist ok ng ≤ f2 →
      findCountLoopF fits f1 ok ng = findCountLoopF fits f2 ok ng := by
  intro f1
  induction f1 with
  | zero =>
      intro f2 ok ng h1 _
      have hz : Nat.dist ok ng = 0 := Nat.le_zero.mp h1
      cases f2 with
      | zero => rfl
      | succ f2 =>
          simp only [findCountLoopF]
          rw [if_neg (by rw [hz]; omega)]
  | succ f1 ih =>
      intro f2 ok ng h1 h2
      by_cases hd : 1 < Nat.dist ok ng
      · cases f2 with
        | zero => exact absurd h2 (by omega)
        | succ f2 =>
            simp only [findCountLoopF]
            rw [if_pos hd, if_pos hd]
            have hdec1 : Nat.dist ((ok + ng) / 2) ng < Nat.dist ok ng := by
              simp [Nat.dist] at hd ⊢; omega
            have hdec2 : Nat.dist ok ((ok + ng) / 2) < Nat.dist ok ng := by
              simp [Nat.dist] at hd ⊢; omega
            cases hfit : fits ((ok + ng) / 2) with
            | true =>
                rw [if_pos rfl, if_pos rfl]
                exact ih f2 _ _ (by omega) (by omega)
            | false =>
                rw [if_neg (by simp), if_neg (by simp)]
                exact ih f2 _ _ (by omega) (by omega)
      · cases f2 with
        | zero => simp only [findCountLoopF]; rw [if_neg hd]
        | succ f2 => simp only [findCountLoopF]; rw [if_neg hd, if_neg hd]

theorem findCountLoopF_basic (fits : Nat → Bool) :
    ∀ (fuel ok ng : Nat), Nat.dist ok ng ≤ fuel → ok < ng →
      ok ≤ findCountLoopF fits fuel ok ng ∧
      findCountLoopF fits fuel ok ng < ng ∧
      (findCountLoopF fits fuel ok ng = ok ∨
        fits (findCountLoopF fits fuel ok ng) = true) := by
  intro fuel
  induction fuel with
  | zero =>
      intro ok ng hf h
      exact absurd h (by simp [Nat.dist] at hf; omega)
  | succ fuel ih =>
      intro ok ng hf h
      have hds : Nat.dist ok ng = ng - ok := by simp [Nat.dist]; omega
      rw [hds] at hf
      simp only [findCountLoopF]
      by_cases hd : 1 < Nat.dist ok ng
      · rw [if_pos hd]
        rw [hds] at hd
        have hm1 : ok < (ok + ng) / 2 := by omega
        have hm2 : (ok + ng) / 2 < ng := by omega
        cases hfit : fits ((ok + ng) / 2) with
        | true =>
            rw [if_pos rfl]
            obtain ⟨a, b, c⟩ := ih ((ok + ng) / 2) ng (by simp [Nat.dist]; omega) hm2
            refine ⟨le_trans (le_of_lt hm1) a, b, Or.inr ?_⟩
            rcases c with hc | hc
            · rw [hc]; exact hfit
            · exact hc
        | false =>
            rw [if_neg (by simp)]
            obtain ⟨a, b, c⟩ := ih ok ((ok + ng) / 2) (by simp [Nat.dist]; omega) hm1
            exact ⟨a, lt_trans b hm2, c⟩
      · rw [if_neg hd]
        exact ⟨le_refl ok, h, Or.inl rfl⟩

theorem findCountLoopF_inv (fits : Nat → Bool) (P : Nat → Prop)
    (hP : ∀ m, fits m = false → P m) :
    ∀ (fuel ok ng : Nat), Nat.dist ok ng ≤ fuel → ok < ng →
      fits ok = true → P ng →
      fits (findCountLoopF fits fuel ok ng) = true ∧
      P (findCountLoopF fits fuel ok ng + 1) ∧
      findCountLoopF fits fuel ok ng + 1 ≤ ng := by
  intro fuel
  induction fuel with
  | zero =>
      intro ok ng hf h _ _
      exact absurd h (by simp [Nat.dist] at hf; omega)
  | succ fuel ih =>
      intro ok ng hf h hok hng
      have hds : Nat.dist ok ng = ng - ok := by simp [Nat.dist]; omega
      rw [hds] at hf
      simp only [findCountLoopF]
      by_cases hd : 1 < Nat.dist ok ng
      · rw [if_pos hd]
        rw [hds] at hd
        have hm1 : ok < (ok + ng) / 2 := by omega
        have hm2 : (ok + ng) / 2 < ng := by omega
        cases hfit : fits ((ok + ng) / 2) with
        | true =>
            rw [if_pos rfl]
            exact ih ((ok + ng) / 2) ng (by simp [Nat.dist]; omega) hm2 hfit hng
        | false =>
            rw [if_neg (by simp)]
            obtain ⟨x1, x2, x3⟩ :=
              ih ok ((ok + ng) / 2) (by simp [Nat.dist]; omega) hm1 hok (hP _ hfit)
            exact ⟨x1, x2, le_trans x3 (le_of_lt hm2)⟩
      · rw [if_neg hd]
        rw [hds] at hd
        have hng1 : ng = ok + 1 := by omega
        subst hng1
        exact ⟨hok, hng, le_refl _⟩

theorem findCountLoopF_none (fits : Nat → Bool) :
    ∀ (fuel ok ng : Nat), Nat.dist ok ng ≤ fuel → ok < ng →
      (∀ m, ok < m → m < ng → fits m = false) →
      findCountLoopF fits fuel ok ng = ok := by
  intro fuel
  induction fuel with
  | zero =>
      intro ok ng hf h _
      exact absurd h (by simp [Nat.dist] at hf; omega)
  | succ fuel ih =>
      intro ok ng hf h hall
      have hds : Nat.dist ok ng = ng - ok := by simp [Nat.dist]; omega
      rw [hds] at hf
      simp only [findCountLoopF]
      by_cases hd : 1 < Nat.dist ok ng
      · rw [if_pos hd]
        rw [hds] at hd
        have hm1 : ok < (ok + ng) / 2 := by omega
        have hm2 : (ok + ng) / 2 < ng := by omega
        rw [if_neg (by simp [hall _ hm1 hm2])]
        exact ih ok ((ok + ng) / 2) (by simp [Nat.dist]; omega) hm1
          (fun m hm hm' => hall m hm (lt_trans hm' hm2))
      · rw [if_neg hd]

theorem findCountStepsF_le (fits : Nat → Bool) :
    ∀ (fuel ok ng : Nat), Nat.dist ok ng ≤ fuel →
      findCountStepsF fits fuel ok ng ≤ Nat.clog 2 (Nat.dist ok ng) := by
  intro fuel
  induction fuel with
  | zero => intro ok ng _; exact Nat.zero_le _
  | succ fuel ih =>
      intro ok ng hf
      simp only [findCountStepsF]
      by_cases hd : 1 < Nat.dist ok ng
      · rw [if_pos hd]
        have hkey : Nat.clog 2 (Nat.dist ok ng) =
            Nat.clog 2 ((Nat.dist ok ng + 1) / 2) + 1 :=
          Nat.clog_of_two_le (by omega) hd
        cases hfit : fits ((ok + ng) / 2) with
        | true =>
            rw [if_pos rfl]
            have hdec : Nat.dist ((ok + ng) / 2) ng ≤ (Nat.dist ok ng + 1) / 2 := by
              simp [Nat.dist] at hd ⊢; omega
            have hfuel : Nat.dist ((ok + ng) / 2) ng ≤ fuel := by
              simp [Nat.dist] at hd hf ⊢; omega
            calc findCountStepsF fits fuel ((ok + ng) / 2) ng + 1
                ≤ Nat.clog 2 (Nat.dist ((ok + ng) / 2) ng) + 1 :=
                  Nat.add_le_add_right (ih _ _ hfuel) 1
              _ ≤ Nat.clog 2 ((Nat.dist ok ng + 1) / 2) + 1 :=
                  Nat.add_le_add_right (Nat.clog_mono_right 2 hdec) 1
              _ = Nat.clog 2 (Nat.dist ok ng) := hkey.symm
        | false =>
            rw [if_neg (by simp)]
            have hdec : Nat.dist ok ((ok + ng) / 2) ≤ (Nat.dist ok ng + 1) / 2 := by
              simp [Nat.dist] at hd ⊢; omega
            have hfuel : Nat.dist ok ((ok + ng) / 2) ≤ fuel := by
              simp [Nat.dist] at hd hf ⊢; omega
            calc findCountStepsF fits fuel ok ((ok + ng) / 2) + 1
                ≤ Nat.clog 2 (Nat.dist ok ((ok + ng) / 2)) + 1 :=
                  Nat.add_le_add_right (ih _ _ hfuel) 1
              _ ≤ Nat.clog 2 ((Nat.dist ok ng + 1) / 2) + 1 :=
                  Nat.add_le_add_right (Nat.clog_mono_right 2 hdec) 1
              _ = Nat.clog 2 (Nat.dist ok ng) := hkey.symm
      · rw [if_neg hd]
        exact Nat.zero_le _

theorem mono_of_adj (f : Nat → Nat) (n : Nat)
    (hadj : ∀ k, k < n → f k ≤ f (k + 1)) :
    ∀ i j, i ≤ j → j ≤ n → f i ≤ f j := by
  intro i j
  induction j with
  | zero =>
      intro hij _
      have hi : i = 0 := Nat.le_zero.mp hij
      subst hi; exact le_refl _
  | succ j ihj =>
      intro hij hjn
      rcases Nat.lt_or_ge i (j + 1) with hlt | hge
      · exact le_trans (ihj (by omega) (by omega)) (hadj j (by omega))
      · have hi : i = j + 1 := by omega
        subst hi; exact le_refl _

/-- Claim C3: for an empty items list, and any topics, limit and clock, the
search returns 0 immediately — both the generalized `find_max_fitting_count`
and the source's `_find_optimal_paper_count` — performing zero
render+measure probes. -/
theorem claim_c3_empty_no_probe (topics : List (List Char)) (limit_bytes : Nat)
    (now : Moment) :
    find_max_fitting_count [] topics limit_bytes now = 0 ∧
    _find_optimal_paper_count [] topics now = 0 ∧
    findProbeCount [] topics limit_bytes now = 0 :=
  ⟨rfl, rfl, rfl⟩

/-- Claim C4: the bisection loop terminates on every input (it is a total
function here, with fuel `len(items) + 1 = Nat.dist 0 (len+1)` that provably
suffices, `findCountLoopF_fuel_irrel`), and the number of render+measure
probes is at most `⌈log₂ (len(items) + 1)⌉`: the gap `ng - ok` at least
halves on every probe until `hi - lo ≤ 1`, and the loop then returns `ok`. -/
theorem claim_c4_probe_bound (items : List NItem) (topics : List (List Char))
    (limit_bytes : Nat) (now : Moment) :
    findProbeCount items topics limit_bytes now ≤ Nat.clog 2 (items.length + 1) := by
  cases items with
  | nil => exact Nat.zero_le _
  | cons p ps =>
      have h := findCountStepsF_le
        (fun mid => decide (sliceSize (p :: ps) topics now mid ≤ limit_bytes))
        ((p :: ps).length + 1) 0 ((p :: ps).length + 1) (by simp [Nat.dist])
      simpa [findProbeCount, Nat.dist] using h

/-- Claim C6: dispatching an empty relevant-papers list is a no-op success:
it returns `True` for every transport and translator collaborator, so in
particular no transport call can influence (or fail) the result — zero
transport calls are made. -/
theorem claim_c6_empty_dispatch_success (post : Json → Bool)
    (translate : List Char → List Char) (research_topics : List (List Char))
    (now : Moment) :
    send_paper_notification post translate [] research_topics now = true := rfl

/-- Claim C7: rendering is deterministic: two renderer calls with identical
inputs — papers, topics, total, and the injected clock reading (the only
ambient state the source reads, via `datetime.now()`) — serialize to
byte-identical envelopes. -/
theorem claim_c7_render_deterministic (s1 s2 : List NItem)
    (t1 t2 : List (List Char)) (tot1 tot2 : Option Nat) (n1 n2 : Moment)
    (hs : s1 = s2) (ht : t1 = t2) (htot : tot1 = tot2) (hn : n1 = n2) :
    dumpsVal (payloadWrap (_generate_papers_card s1 t1 tot1 n1)) =
    dumpsVal (payloadWrap (_generate_papers_card s2 t2 tot2 n2)) := by
  subst hs; subst ht; subst htot; subst hn; rfl

/-- Witness for claim C7 at a concrete input. -/
theorem claim_c7_render_deterministic_witness :
    dumpsVal (payloadWrap (_generate_papers_card items0 [] (some 1) now0)) =
    dumpsVal (payloadWrap (_generate_papers_card items0 [] (some 1) now0)) :=
  claim_c7_render_deterministic items0 items0 [] [] (some 1) (some 1) now0 now0
    rfl rfl rfl rfl

/-- Claim C8: the limit is exactly `27 * 1024 = 27648` bytes, one KiB below
the provider's 28 KiB ceiling; the sizer measures the UTF-8 byte length of
the serialized envelope (not its character count — e.g. the one-character
string `"•"` is 3 bytes); and the search compares exactly this measure
against exactly this constant. -/
theorem claim_c8_byte_limit :
    MAX_PAYLOAD_SIZE_BYTES = 27648 ∧
    MAX_PAYLOAD_SIZE_BYTES + 1024 = 28 * 1024 ∧
    (∀ (shown : List NItem) (topics : List (List Char)) (total : Option Nat)
        (now : Moment),
      payloadSize shown topics total now =
        utf8Len (dumpsVal (payloadWrap (_generate_papers_card shown topics total now)))) ∧
    (∀ (items : List NItem) (topics : List (List Char)) (now : Moment),
      _find_optimal_paper_count items topics now =
        find_max_fitting_count items topics MAX_PAYLOAD_SIZE_BYTES now) ∧
    utf8Len "•".data = 3 ∧ ("•".data).length = 1 :=
  ⟨rfl, by decide, fun _ _ _ _ => rfl, fun _ _ _ => rfl, by decide, by decide⟩

/-- Claim C10: with no assumption at all on the input, the search result `k`
satisfies `0 ≤ k ≤ len(items)`, and whenever `k > 0` the envelope rendered
from exactly the length-`k` leading slice (with true total `len(items)`)
measures within the byte limit — the loop only ever moves `ok` to a probed
`mid` whose rendered slice fit. -/
theorem claim_c10_search_result_invariant (items : List NItem)
    (topics : List (List Char)) (now : Moment) :
    _find_optimal_paper_count items topics now ≤ items.length ∧
    (0 < _find_optimal_paper_count items topics now →
      sliceSize items topics now (_find_optimal_paper_count items topics now) ≤
        MAX_PAYLOAD_SIZE_BYTES) := by
  cases items with
  | nil => exact ⟨Nat.le_refl 0, fun h => absurd h (Nat.lt_irrefl 0)⟩
  | cons p ps =>
      obtain ⟨a, b, c⟩ := findCountLoopF_basic
        (fun mid => decide (sliceSize (p :: ps) topics now mid ≤ MAX_PAYLOAD_SIZE_BYTES))
        ((p :: ps).length + 1) 0 ((p :: ps).length + 1) (by simp [Nat.dist])
        (Nat.succ_pos _)
      have hfind : _find_optimal_paper_count (p :: ps) topics now =
          findCountLoopF
            (fun mid => decide (sliceSize (p :: ps) topics now mid ≤ MAX_PAYLOAD_SIZE_BYTES))
            ((p :: ps).length + 1) 0 ((p :: ps).length + 1) := rfl
      rw [hfind]
      constructor
      · omega
      · intro hpos
        rcases c with hc | hc
        · omega
        · exact of_decide_eq_true hc

/-- Witness for claim C10 at a concrete input (one small paper; the probe at
`mid = 1` fits, so the search returns 1 and the rendered slice of length 1
measures within the limit). -/
theorem claim_c10_search_result_invariant_witness :
    _find_optimal_paper_count items0 [] now0 ≤ items0.length ∧
    (0 < _find_optimal_paper_count items0 [] now0 →
      sliceSize items0 [] now0 (_find_optimal_paper_count items0 [] now0) ≤
        MAX_PAYLOAD_SIZE_BYTES) :=
  claim_c10_search_result_invariant items0 [] now0

/-- Claim C5: if fewer items are shown than the true total, the rendered
header text contains both the shown count and the true total (as decimal
substrings of the `"{shown} of {total} New Relevant Papers (size limit
reached)"` wording); if the shown count equals the true total, the header is
exactly `"{shown} New Relevant Papers"`, mentioning no total distinct from
the shown count. -/
theorem claim_c5_header_truncation (shown : List NItem) (total : Nat) :
    (shown.length < total →
      (∃ a b, headerText shown.length (some total) =
        a ++ reprChars shown.length ++ b) ∧
      (∃ a b, headerText shown.length (some total) = a ++ reprChars total ++ b)) ∧
    (shown.length = total →
      headerText shown.length (some total) =
        reprChars shown.length ++ " New Relevant Papers".data) := by
  constructor
  · intro hlt
    have hcond : total ≠ 0 ∧ shown.length < total := ⟨by omega, hlt⟩
    have he : headerText shown.length (some total) =
        reprChars shown.length ++ " of ".data ++ reprChars total ++
          " New Relevant Papers (size limit reached)".data := by
      simp only [headerText]
      rw [if_pos hcond]
    constructor
    · exact ⟨[], " of ".data ++ reprChars total ++
        " New Relevant Papers (size limit reached)".data,
        by rw [he]; simp [List.append_assoc]⟩
    · exact ⟨reprChars shown.length ++ " of ".data,
        " New Relevant Papers (size limit reached)".data, by rw [he]⟩
  · intro heq
    simp only [headerText]
    rw [if_neg (by omega)]

/-- Witness for claim C5: a truncated header (0 of 2) contains both counts,
and an untruncated one (1 of 1) is exactly "1 New Relevant Papers". -/
theorem claim_c5_header_truncation_witness :
    ((∃ a b, headerText ([] : List NItem).length (some 2) =
        a ++ reprChars ([] : List NItem).length ++ b) ∧
     (∃ a b, headerText ([] : List NItem).length (some 2) =
        a ++ reprChars 2 ++ b)) ∧
    headerText items0.length (some 1) =
      reprChars items0.length ++ " New Relevant Papers".data :=
  ⟨(claim_c5_header_truncation [] 2).1 (by decide),
   (claim_c5_header_truncation items0 1).2 (by decide)⟩

/-- Claim C9: with an always-throwing translation client, `translate_text`
returns every input text unchanged (it never raises into the core: every
branch, including the `except` branch, returns a string); consequently every
prepared item's translated abstract equals its original abstract, and
dispatch still succeeds whenever the transport succeeds. -/
theorem claim_c9_translator_fallback (target_language : List Char) :
    (∀ text, translate_text target_language (fun _ => Except.error ()) text = text) ∧
    (∀ relevant_papers : List (Paper × Relevance),
      _prepare_translated_papers
        (fun s => translate_text target_language (fun _ => Except.error ()) s)
        relevant_papers =
      relevant_papers.map (fun pr => (pr.1, pr.2, pr.1.summary))) ∧
    (∀ (relevant_papers : List (Paper × Relevance))
        (research_topics : List (List Char)) (now : Moment),
      send_paper_notification (fun _ => true)
        (fun s => translate_text target_language (fun _ => Except.error ()) s)
        relevant_papers research_topics now = true) := by
  have h1 : ∀ text,
      translate_text target_language (fun _ => Except.error ()) text = text := by
    intro text
    simp only [translate_text]
    repeat' split
    all_goals rfl
  refine ⟨h1, ?_, ?_⟩
  · intro papers
    simp [_prepare_translated_papers, h1]
  · intro papers topics now
    cases papers with
    | nil => rfl
    | cons pr rest => rfl

/-- Counterexample to claim C1 as stated: at `items0` (one small paper,
monotone slice sizes — first conjunct), empty topics, limit 0 and clock
`now0`, the search returns 0, yet the envelope of the empty slice does not
fit the limit, so the returned value is not a `k` whose rendered slice fits
(no such `k` exists); "returns the largest k whose slice fits" fails. -/
theorem claim_c1_counterexample :
    (∀ k, k < items0.length →
      sliceSize items0 [] now0 k ≤ sliceSize items0 [] now0 (k + 1)) ∧
    find_max_fitting_count items0 [] 0 now0 = 0 ∧
    ¬ sliceSize items0 [] now0 (find_max_fitting_count items0 [] 0 now0) ≤ 0 :=
  ⟨by decide, by decide, by decide⟩

/-- Claim C1 (amended): additionally assuming the empty slice's envelope
fits the limit (the spec's own `lo = 0` known-fitting assumption in §4.3),
the search returns the largest `k ∈ [0, len(items)]` whose rendered slice
(with true total `len(items)`) measures within the limit: the returned `k`
fits, if `k < len(items)` then `k + 1` does not fit, and every fitting `j`
is at most `k`. -/
theorem claim_c1_amended (items : List NItem) (topics : List (List Char))
    (limit_bytes : Nat) (now : Moment)
    (hmono : ∀ k, k < items.length →
      sliceSize items topics now k ≤ sliceSize items topics now (k + 1))
    (hempty : sliceSize items topics now 0 ≤ limit_bytes) :
    find_max_fitting_count items topics limit_bytes now ≤ items.length ∧
    sliceSize items topics now (find_max_fitting_count items topics limit_bytes now) ≤
      limit_bytes ∧
    (find_max_fitting_count items topics limit_bytes now < items.length →
      limit_bytes <
        sliceSize items topics now
          (find_max_fitting_count items topics limit_bytes now + 1)) ∧
    (∀ j, j ≤ items.length → sliceSize items topics now j ≤ limit_bytes →
      j ≤ find_max_fitting_count items topics limit_bytes now) := by
  cases items with
  | nil =>
      refine ⟨Nat.le_refl 0, hempty, fun h => absurd h (Nat.lt_irrefl 0), ?_⟩
      intro j hj _
      exact hj
  | cons p ps =>
      obtain ⟨hfits, hP, hle⟩ := findCountLoopF_inv
        (fun mid => decide (sliceSize (p :: ps) topics now mid ≤ limit_bytes))
        (fun m => m = (p :: ps).length + 1 ∨
          ¬ sliceSize (p :: ps) topics now m ≤ limit_bytes)
        (fun m hm => Or.inr (of_decide_eq_false hm))
        ((p :: ps).length + 1) 0 ((p :: ps).length + 1)
        (by simp [Nat.dist]) (Nat.succ_pos _)
        (decide_eq_true hempty) (Or.inl rfl)
      have hfind : find_max_fitting_count (p :: ps) topics limit_bytes now =
          findCountLoopF
            (fun mid => decide (sliceSize (p :: ps) topics now mid ≤ limit_bytes))
            ((p :: ps).length + 1) 0 ((p :: ps).length + 1) := rfl
      rw [hfind]
      refine ⟨by omega, of_decide_eq_true hfits, ?_, ?_⟩
      · intro hlt
        rcases hP with h1 | h2
        · omega
        · exact not_le.mp h2
      · intro j hj hfit
        by_contra hcon
        have h1j : findCountLoopF
            (fun mid => decide (sliceSize (p :: ps) topics now mid ≤ limit_bytes))
            ((p :: ps).length + 1) 0 ((p :: ps).length + 1) + 1 ≤ j := not_le.mp hcon
        rcases hP with h1 | h2
        · omega
        · exact h2 (le_trans
            (mono_of_adj _ _ hmono _ j h1j hj) hfit)

/-- Witness for claim C1 (amended) at a concrete input: one small paper,
the source's 27648-byte limit; both hypotheses hold by evaluation. -/
theorem claim_c1_amended_witness :
    find_max_fitting_count items0 [] MAX_PAYLOAD_SIZE_BYTES now0 ≤ items0.length ∧
    sliceSize items0 [] now0
      (find_max_fitting_count items0 [] MAX_PAYLOAD_SIZE_BYTES now0) ≤
      MAX_PAYLOAD_SIZE_BYTES ∧
    (find_max_fitting_count items0 [] MAX_PAYLOAD_SIZE_BYTES now0 < items0.length →
      MAX_PAYLOAD_SIZE_BYTES <
        sliceSize items0 [] now0
          (find_max_fitting_count items0 [] MAX_PAYLOAD_SIZE_BYTES now0 + 1)) ∧
    (∀ j, j ≤ items0.length → sliceSize items0 [] now0 j ≤ MAX_PAYLOAD_SIZE_BYTES →
      j ≤ find_max_fitting_count items0 [] MAX_PAYLOAD_SIZE_BYTES now0) :=
  claim_c1_amended items0 [] MAX_PAYLOAD_SIZE_BYTES now0 (by decide) (by decide)

theorem big_abstract_ge : 27649 ≤ sliceSize bigItems [] now0 1 := by
  have h := abstract_le_payloadSize (bigItems.take 1) [] (some bigItems.length) now0
    (bigPaper, rel0, bigPaper.summary) (by simp [bigItems])
  have he : utf8Len (escStr bigPaper.summary) = 27649 := by
    show utf8Len (escStr (List.replicate 27649 'a')) = 27649
    rw [escStr_replicate_a, utf8Len_replicate_a]
  exact he ▸ h

theorem big_slice_over_limit : MAX_PAYLOAD_SIZE_BYTES < sliceSize bigItems [] now0 1 :=
  lt_of_lt_of_le (by decide) big_abstract_ge


theorem escStr_append (a b : List Char) :
    escStr (a ++ b) = escStr a ++ escStr b := by
  induction a with
  | nil => rfl
  | cons c a ih => simp [List.cons_append, escStr_cons, ih]

theorem charUtf8Len_pos (c : Char) : 1 ≤ charUtf8Len c := by
  unfold charUtf8Len
  repeat' split
  all_goals omega

theorem escapeChar_ne_nil (c : Char) : escapeChar c ≠ [] := by
  unfold escapeChar
  repeat' split
  all_goals simp

theorem utf8Len_escapeChar_pos (c : Char) : 1 ≤ utf8Len (escapeChar c) := by
  cases he : escapeChar c with
  | nil => exact absurd he (escapeChar_ne_nil c)
  | cons d rest =>
      rw [utf8Len_cons]
      have h := charUtf8Len_pos d
      omega

theorem length_le_utf8Len_escStr (s : List Char) :
    s.length ≤ utf8Len (escStr s) := by
  induction s with
  | nil => exact Nat.le_refl 0
  | cons c s ih =>
      rw [escStr_cons, utf8Len_append, List.length_cons]
      have h := utf8Len_escapeChar_pos c
      omega

theorem toDigitsCore_length (b : Nat) :
    ∀ (fuel n : Nat) (ds : List Char), fuel ≠ 0 →
      ds.length + 1 ≤ (Nat.toDigitsCore b fuel n ds).length := by
  intro fuel
  induction fuel with
  | zero => intro n ds h; exact absurd rfl h
  | succ fuel ih =>
      intro n ds _
      simp only [Nat.toDigitsCore]
      split
      · simp
      · cases fuel with
        | zero => simp [Nat.toDigitsCore]
        | succ f2 =>
            have h := ih (n / b) (Nat.digitChar (n % b) :: ds) (Nat.succ_ne_zero f2)
            simp only [List.length_cons] at h
            omega

theorem reprChars_length_pos (n : Nat) : 1 ≤ (reprChars n).length := by
  have he : reprChars n = Nat.toDigitsCore 10 (n + 1) n [] := rfl
  rw [he]
  have h := toDigitsCore_length 10 (n + 1) n [] (Nat.succ_ne_zero n)
  simpa using h

theorem dumpsElems_cons_ge (v : Json) (tl : JsonArr) :
    utf8Len (dumpsVal v) + utf8Len (dumpsElems tl) ≤
    utf8Len (dumpsElems (.cons v tl)) := by
  cases tl with
  | nil => simp [dumpsElems, utf8Len_nil]
  | cons w tl =>
      simp only [dumpsElems, utf8Len_append, utf8Len_cons]
      omega

theorem elems_ge_sum :
    ∀ l : List Json,
      (l.map (fun v => utf8Len (dumpsVal v))).sum ≤ utf8Len (dumpsElems (ja l)) := by
  intro l
  induction l with
  | nil => simp [ja, dumpsElems, utf8Len_nil]
  | cons v l ih =>
      have h := dumpsElems_cons_ge v (ja l)
      calc (List.map (fun v => utf8Len (dumpsVal v)) (v :: l)).sum
          = utf8Len (dumpsVal v) + (l.map (fun v => utf8Len (dumpsVal v))).sum := by
            simp
        _ ≤ utf8Len (dumpsVal v) + utf8Len (dumpsElems (ja l)) := by omega
        _ ≤ utf8Len (dumpsElems (.cons v (ja l))) := h
        _ = utf8Len (dumpsElems (ja (v :: l))) := rfl

theorem first_field_le (k : String) (v : Json) (rest : List (String × Json)) :
    utf8Len (dumpsVal v) ≤ utf8Len (dumpsVal (jobj ((k, v) :: rest))) :=
  le_utf8Len_field _ k v (List.mem_cons_self _ _)

theorem paperContainer_ge (p : Paper) (r : Relevance) (ta : List Char) :
    24 ≤ utf8Len (dumpsVal (paperContainer p r ta)) := by
  have ht : utf8Len (dumpsVal (jstr "TextBlock")) ≤
      utf8Len (dumpsVal (titleBlock p r)) :=
    first_field_le "type" (jstr "TextBlock") _
  have habs : utf8Len (dumpsVal (jstr "TextBlock")) ≤
      utf8Len (dumpsVal (abstractBlock ta)) :=
    first_field_le "type" (jstr "TextBlock") _
  have hf : utf8Len (dumpsVal (jstr "FactSet")) ≤
      utf8Len (dumpsVal (factsBlock p r)) :=
    first_field_le "type" (jstr "FactSet") _
  have hsum := elems_ge_sum
    [titleBlock p r, authorsBlock p, abstractBlock ta, factsBlock p r]
  have harr : utf8Len (dumpsElems (ja
      [titleBlock p r, authorsBlock p, abstractBlock ta, factsBlock p r])) ≤
      utf8Len (dumpsVal (jarr
        [titleBlock p r, authorsBlock p, abstractBlock ta, factsBlock p r])) :=
    le_utf8Len_dumpsVal_arr _
  have hfield : utf8Len (dumpsVal (jarr
      [titleBlock p r, authorsBlock p, abstractBlock ta, factsBlock p r])) ≤
      utf8Len (dumpsVal (paperContainer p r ta)) :=
    le_utf8Len_field
      [("type", jstr "Container"), ("separator", Json.bool true),
       ("spacing", jstr "medium"),
       ("items", jarr [titleBlock p r, authorsBlock p, abstractBlock ta, factsBlock p r])]
      "items" _ (by simp)
  have h1 : utf8Len (dumpsVal (jstr "TextBlock")) = 11 := by decide
  have h2 : utf8Len (dumpsVal (jstr "FactSet")) = 9 := by decide
  simp only [List.map_cons, List.map_nil, List.sum_cons, List.sum_nil] at hsum
  omega

theorem elems_split (ft : Json) :
    ∀ (bs : List Json) (hc : Json),
      utf8Len (dumpsElems (ja (hc :: bs ++ [ft]))) =
      utf8Len (dumpsVal hc) +
        (bs.map (fun v => 2 + utf8Len (dumpsVal v))).sum +
        (2 + utf8Len (dumpsVal ft)) := by
  intro bs
  induction bs with
  | nil =>
      intro hc
      show utf8Len (dumpsVal hc ++ ',' :: ' ' :: dumpsVal ft) = _
      simp only [utf8Len_append, utf8Len_cons, List.map_nil, List.sum_nil]
      have h1 : charUtf8Len ',' = 1 := by decide
      have h2 : charUtf8Len ' ' = 1 := by decide
      omega
  | cons b bs ih =>
      intro hc
      have hstep : utf8Len (dumpsElems (ja (hc :: (b :: bs) ++ [ft]))) =
          utf8Len (dumpsVal hc) + 2 + utf8Len (dumpsElems (ja (b :: bs ++ [ft]))) := by
        show utf8Len (dumpsVal hc ++ ',' :: ' ' :: dumpsElems (ja (b :: bs ++ [ft]))) = _
        simp only [utf8Len_append, utf8Len_cons]
        have h1 : charUtf8Len ',' = 1 := by decide
        have h2 : charUtf8Len ' ' = 1 := by decide
        omega
      rw [hstep, ih b]
      simp only [List.map_cons, List.sum_cons]
      omega

theorem dumpsVal_str (s : List Char) :
    dumpsVal (Json.str s) = '"' :: escStr s ++ ['"'] := rfl

theorem dumpsVal_bool_true : dumpsVal (Json.bool true) = "true".data := rfl

theorem dumpsVal_arr (l : JsonArr) :
    dumpsVal (Json.arr l) = '[' :: dumpsElems l ++ [']'] := rfl

theorem dumpsVal_obj (l : JsonObj) :
    dumpsVal (Json.obj l) = '\x7b' :: dumpsFields l ++ ['\x7d'] := rfl

theorem dumpsElems_one (v : Json) : dumpsElems (.cons v .nil) = dumpsVal v := rfl

theorem dumpsElems_cons2 (v w : Json) (tl : JsonArr) :
    dumpsElems (.cons v (.cons w tl)) =
    dumpsVal v ++ ',' :: ' ' :: dumpsElems (.cons w tl) := rfl

theorem dumpsFields_one (k : List Char) (v : Json) :
    dumpsFields (.cons k v .nil) = '"' :: escStr k ++ '"' :: ':' :: ' ' :: dumpsVal v := rfl

theorem dumpsFields_cons2 (k : List Char) (v : Json) (k2 : List Char) (v2 : Json)
    (tl : JsonObj) :
    dumpsFields (.cons k v (.cons k2 v2 tl)) =
    '"' :: escStr k ++ '"' :: ':' :: ' ' :: dumpsVal v ++ ',' :: ' ' ::
      dumpsFields (.cons k2 v2 tl) := rfl

theorem elems_split3 (ft hc : Json) (bs : List Json) :
    utf8Len (dumpsElems (JsonArr.cons hc (ja (List.append bs [ft])))) =
    utf8Len (dumpsVal hc) +
      (bs.map (fun v => 2 + utf8Len (dumpsVal v))).sum +
      (2 + utf8Len (dumpsVal ft)) :=
  elems_split ft bs hc

theorem payloadSize_exchange (topics : List (List Char)) (now : Moment)
    (s1 s2 : List NItem) (t1 t2 : Option Nat) :
    payloadSize s1 topics t1 now +
      (utf8Len (escStr (headerText s2.length t2)) +
       (s2.map (fun it => 2 + utf8Len (dumpsVal (paperContainer it.1 it.2.1 it.2.2)))).sum) =
    payloadSize s2 topics t2 now +
      (utf8Len (escStr (headerText s1.length t1)) +
       (s1.map (fun it => 2 + utf8Len (dumpsVal (paperContainer it.1 it.2.1 it.2.2)))).sum) := by
  simp only [payloadSize, payloadWrap, _generate_papers_card, headerContainer,
    jobj, jarr, jstr, List.map_cons, List.map_nil, jo, ja,
    dumpsVal_str, dumpsVal_bool_true, dumpsVal_arr, dumpsVal_obj,
    dumpsElems_one, dumpsElems_cons2, dumpsFields_one, dumpsFields_cons2,
    utf8Len_append, utf8Len_cons, utf8Len_nil]
  rw [elems_split3, elems_split3]
  simp only [jobj, jarr, jstr, List.map_cons, List.map_nil, jo, ja,
    dumpsVal_str, dumpsVal_bool_true, dumpsVal_arr, dumpsVal_obj,
    dumpsElems_one, dumpsElems_cons2, dumpsFields_one, dumpsFields_cons2,
    utf8Len_append, utf8Len_cons, utf8Len_nil, List.map_map, Function.comp_def]
  omega

theorem headerText_long_eq (k n : Nat) (h : k < n) :
    headerText k (some n) = reprChars k ++ " of ".data ++ reprChars n ++
      " New Relevant Papers (size limit reached)".data := by
  simp only [headerText]
  rw [if_pos ⟨by omega, h⟩]

theorem headerText_short_eq (n : Nat) :
    headerText n (some n) = reprChars n ++ " New Relevant Papers".data := by
  simp only [headerText]
  rw [if_neg (by omega)]

theorem escLen_headerText_long (k n : Nat) (h : k < n) :
    utf8Len (escStr (headerText k (some n))) =
    utf8Len (escStr (reprChars k)) + utf8Len (escStr (reprChars n)) + 45 := by
  rw [headerText_long_eq k n h, escStr_append, escStr_append, escStr_append,
    utf8Len_append, utf8Len_append, utf8Len_append]
  have h1 : utf8Len (escStr " of ".data) = 4 := by decide
  have h2 : utf8Len (escStr " New Relevant Papers (size limit reached)".data) = 41 := by
    decide
  omega

theorem escLen_headerText_short (n : Nat) :
    utf8Len (escStr (headerText n (some n))) =
    utf8Len (escStr (reprChars n)) + 20 := by
  rw [headerText_short_eq, escStr_append, utf8Len_append]
  have h1 : utf8Len (escStr " New Relevant Papers".data) = 20 := by decide
  omega

theorem escLen_repr_pos (k : Nat) : 1 ≤ utf8Len (escStr (reprChars k)) :=
  le_trans (reprChars_length_pos k) (length_le_utf8Len_escStr _)

/-- The envelope of the one-item slice is never larger than the envelope of
any longer slice (up to the whole list): each extra paper adds a whole
container to the body, which outweighs the only shrinking part, the header
wording change at `m = len(items)`. This discharges, for the real renderer,
the monotone-size assumption on the range the search can probe when nothing
fits. -/
theorem sliceSize_one_le (items : List NItem) (topics : List (List Char))
    (now : Moment) (m : Nat) (h1m : 1 ≤ m) (hmn : m ≤ items.length) :
    sliceSize items topics now 1 ≤ sliceSize items topics now m := by
  have hn1 : 1 ≤ items.length := le_trans h1m hmn
  have hl1 : (items.take 1).length = 1 := by rw [List.length_take]; omega
  have hlm : (items.take m).length = m := by rw [List.length_take]; omega
  have hex := payloadSize_exchange topics now (items.take 1) (items.take m)
    (some items.length) (some items.length)
  rw [hl1, hlm] at hex
  have hsub : items.take m = items.take 1 ++ (items.take m).drop 1 := by
    conv_lhs => rw [← List.take_append_drop 1 (items.take m)]
    rw [List.take_take, Nat.min_eq_left h1m]
  have hS : ((items.take 1).map
        (fun it => 2 + utf8Len (dumpsVal (paperContainer it.1 it.2.1 it.2.2)))).sum ≤
      ((items.take m).map
        (fun it => 2 + utf8Len (dumpsVal (paperContainer it.1 it.2.1 it.2.2)))).sum := by
    conv_rhs => rw [hsub]
    rw [List.map_append, List.sum_append]
    exact Nat.le_add_right _ _
  have hr1 : utf8Len (escStr (reprChars 1)) = 1 := by decide
  rcases Nat.lt_or_ge m items.length with hlt | hge
  · have e1 := escLen_headerText_long 1 items.length (by omega)
    have em := escLen_headerText_long m items.length hlt
    have hrm := escLen_repr_pos m
    show payloadSize (items.take 1) topics (some items.length) now ≤
      payloadSize (items.take m) topics (some items.length) now
    omega
  · have hm : m = items.length := le_antisymm hmn hge
    rcases Nat.eq_or_lt_of_le hn1 with h1 | h1
    · have hm1 : m = 1 := by omega
      subst hm1
      exact le_refl _
    · have e1 := escLen_headerText_long 1 items.length h1
      have hen : utf8Len (escStr (headerText m (some items.length))) =
          utf8Len (escStr (reprChars items.length)) + 20 := by
        rw [hm]
        exact escLen_headerText_short items.length
      have hsplit : items = items.take 1 ++ items.drop 1 :=
        (List.take_append_drop 1 items).symm
      have hdlen : 1 ≤ (items.drop 1).length := by
        rw [List.length_drop]; omega
      have hS26 : ((items.take 1).map
            (fun it => 2 + utf8Len (dumpsVal (paperContainer it.1 it.2.1 it.2.2)))).sum + 26 ≤
          ((items.take m).map
            (fun it => 2 + utf8Len (dumpsVal (paperContainer it.1 it.2.1 it.2.2)))).sum := by
        have htm : items.take m = items := by rw [hm, List.take_length]
        rw [htm]
        conv_rhs => rw [hsplit]
        rw [List.map_append, List.sum_append]
        cases hd : items.drop 1 with
        | nil => rw [hd] at hdlen; simp at hdlen
        | cons it2 rest2 =>
            rw [List.map_cons, List.sum_cons]
            have hpc := paperContainer_ge it2.1 it2.2.1 it2.2.2
            omega
      show payloadSize (items.take 1) topics (some items.length) now ≤
        payloadSize (items.take m) topics (some items.length) now
      omega

/-- Claim C2: if even the one-paper slice's envelope exceeds the byte
limit (so no nonempty prefix fits, since every longer slice up to the
whole list is at least as large by `sliceSize_one_le`), the search still
returns 0 — it is a total function and never fails on "nothing fits" —
and the dispatcher hands the valid empty-content envelope to the
transport, so the run still reports whatever the transport reports
(success when the transport succeeds) instead of failing. -/
theorem claim_c2_nothing_fits (post : Json → Bool) (translate : List Char → List Char)
    (relevant_papers : List (Paper × Relevance)) (research_topics : List (List Char))
    (now : Moment)
    (hne : relevant_papers ≠ [])
    (hbig : MAX_PAYLOAD_SIZE_BYTES <
      sliceSize (_prepare_translated_papers translate relevant_papers)
        research_topics now 1) :
    _find_optimal_paper_count (_prepare_translated_papers translate relevant_papers)
      research_topics now = 0 ∧
    send_paper_notification post translate relevant_papers research_topics now =
      post (payloadWrap (_generate_papers_card [] research_topics
        (some relevant_papers.length) now)) := by
  cases relevant_papers with
  | nil => exact absurd rfl hne
  | cons pr rest =>
      have hall : ∀ m, 0 < m →
          m < (_prepare_translated_papers translate (pr :: rest)).length + 1 →
          (fun mid => decide (sliceSize (_prepare_translated_papers translate (pr :: rest))
            research_topics now mid ≤ MAX_PAYLOAD_SIZE_BYTES)) m = false := by
        intro m hm0 hmlt
        apply decide_eq_false
        intro hle
        have h1m : sliceSize (_prepare_translated_papers translate (pr :: rest))
            research_topics now 1 ≤
            sliceSize (_prepare_translated_papers translate (pr :: rest))
              research_topics now m :=
          sliceSize_one_le _ _ _ m hm0 (by omega)
        omega
      have hloop : _find_optimal_paper_count
          (_prepare_translated_papers translate (pr :: rest)) research_topics now =
          findCountLoopF
            (fun mid => decide (sliceSize (_prepare_translated_papers translate (pr :: rest))
              research_topics now mid ≤ MAX_PAYLOAD_SIZE_BYTES))
            ((_prepare_translated_papers translate (pr :: rest)).length + 1) 0
            ((_prepare_translated_papers translate (pr :: rest)).length + 1) := rfl
      have hfind : _find_optimal_paper_count
          (_prepare_translated_papers translate (pr :: rest)) research_topics now = 0 := by
        rw [hloop]
        exact findCountLoopF_none _
          ((_prepare_translated_papers translate (pr :: rest)).length + 1) 0
          ((_prepare_translated_papers translate (pr :: rest)).length + 1)
          (by simp [Nat.dist]) (Nat.succ_pos _) hall
      have hsend : send_paper_notification post translate (pr :: rest)
          research_topics now =
          post (payloadWrap (_generate_papers_card
            ((_prepare_translated_papers translate (pr :: rest)).take
              (_find_optimal_paper_count
                (_prepare_translated_papers translate (pr :: rest)) research_topics now))
            research_topics
            (some (_prepare_translated_papers translate (pr :: rest)).length) now)) := rfl
      have hlen : (_prepare_translated_papers translate (pr :: rest)).length =
          (pr :: rest).length := by
        simp [_prepare_translated_papers]
      refine ⟨hfind, ?_⟩
      rw [hsend, hfind, List.take_zero, hlen]

/-- Witness for claim C2: a single paper whose 27649-character abstract
alone exceeds the 27648-byte limit; the search returns 0 and dispatch with
an always-succeeding transport returns success. -/
theorem claim_c2_nothing_fits_witness :
    _find_optimal_paper_count
      (_prepare_translated_papers (fun s => s) [(bigPaper, rel0)]) [] now0 = 0 ∧
    send_paper_notification (fun _ => true) (fun s => s) [(bigPaper, rel0)] [] now0 =
      (fun _ => true) (payloadWrap (_generate_papers_card [] []
        (some ([(bigPaper, rel0)] : List (Paper × Relevance)).length) now0)) :=
  claim_c2_nothing_fits (fun _ => true) (fun s => s) [(bigPaper, rel0)] [] now0
    (List.cons_ne_nil _ _) big_slice_over_limit
